import Mathlib

set_option linter.unusedVariables false

/-!
Verification of `scripts/read_structs/read_structs.py` (and the behaviour of
the Cython property accessors it emits) against the repository's
natural-language specification.

The Python module is shallowly embedded below.  `read_header_file` and
`make_enums` are imported by `read_structs.py` but their source is not part
of this tree; their results are modelled from the specification (see the
doc comments on `HeaderModel` and `make_enums`).  Everything else is a
direct translation of `read_structs.py`.
-/

/-- Modelled from the spec: an enum-class declaration parsed by the missing
`read_header_file` — a name together with the ordered member list (spec §3,
`EnumDecl`). -/
structure EnumDecl where
  name : String
  members : List String
deriving DecidableEq, Repr

/-- Modelled from the spec: one struct member-declaration line parsed by the
missing `read_header_file` — a type name and the declared variable names in
order (spec §3, `StructDecl`).  `make` matches `typename` against the enum
type names to decide which variables are enum-valued, so each entry is one
`typename var1, var2, ...` declaration. -/
structure StructDecl where
  typename : String
  vars : List String
deriving DecidableEq, Repr

/-- Modelled from the spec: the result of the missing `read_header_file`
(spec §3, `HeaderModel`): enclosing class name, namespace path, enum-class
declarations and struct declarations, all in declaration order. -/
structure HeaderModel where
  classname : String
  namespaces : List String
  enum_classes : List EnumDecl
  structs : List StructDecl
deriving DecidableEq, Repr

/-- Python's `sep.join(ls)`. -/
def joinLines (sep : String) : List String → String
  | [] => ""
  | [x] => x
  | x :: y :: rest => x ++ sep ++ joinLines sep (y :: rest)

/-- Python's `str.upper` (ASCII), via a structural map over the characters. -/
def strUpper (s : String) : String := String.mk (s.data.map Char.toUpper)

/-- Python's `str.endswith`. -/
def strEndsWith (s suffix : String) : Bool := suffix.data.isSuffixOf s.data

/-- Python's `str.startswith`. -/
def strStartsWith (s pre : String) : Bool := pre.data.isPrefixOf s.data

/-- Names of the enum types, third component of `make_enums` (spec §4.2:
"set of type names that are enums"). -/
def enum_types (ecs : List EnumDecl) : List String :=
  ecs.map (·.name)

/-- Modelled from the spec: the per-enum block of `enum_class_text` produced
by the missing `make_enums` — it "declares, for each enum, an
externally-visible enum type plus a named-list constant enumerating member
names in declaration order" (spec §4.2). -/
def enum_class_block (e : EnumDecl) : String :=
  "enum " ++ e.name ++ ":\n" ++
    joinLines "" (e.members.map (fun m => "    " ++ m ++ "\n")) ++
    strUpper e.name ++ "_NAMES = [" ++
    joinLines ", " (e.members.map (fun m => "\"" ++ m ++ "\"")) ++ "]\n"

/-- Modelled from the spec: the per-enum block of `enum_property_text`
produced by the missing `make_enums` — a "per-enum binding attaching the
named-list constant to the wrapper class" (spec §4.2). -/
def enum_pyx_block (e : EnumDecl) : String :=
  "    " ++ strUpper e.name ++ "_NAMES = [" ++
    joinLines ", " (e.members.map (fun m => "\"" ++ m ++ "\"")) ++ "]"

/-- Modelled from the spec: the missing `make_enums` (spec §4.2), returning
`(enum_class_text, enum_property_text, enum_type_names)`. -/
def make_enums (ecs : List EnumDecl) (header_file ns classname : String) :
    String × String × List String :=
  (joinLines "" (ecs.map enum_class_block),
   joinLines "\n" (ecs.map enum_pyx_block),
   enum_types ecs)

/-- The `fmt` lambda of `make`: `s.typename + ' ' + ', '.join(s.vars)`. -/
def fmtStruct (s : StructDecl) : String :=
  s.typename ++ " " ++ joinLines ", " s.vars

/-- The `pyx_structs` local of `make`: member lines joined (and, when
non-empty, prefixed) by `'\n        '`. -/
def pyx_structs (structs : List StructDecl) : String :=
  if joinLines "\n        " (structs.map fmtStruct) = "" then ""
  else "\n        " ++ joinLines "\n        " (structs.map fmtStruct)

/-- The `struct_definition` local of `make`:
`'    struct %s:%s' % (classname, pyx_structs)`. -/
def struct_definition (h : HeaderModel) : String :=
  "    struct " ++ h.classname ++ ":" ++ pyx_structs h.structs

/-- The `variables_to_enum_type` dict of `make`: for each struct whose
typename is an enum type, each of its variables maps to that typename;
later entries overwrite earlier ones, as for a Python dict. -/
def variables_to_enum_type (structs : List StructDecl) (ets : List String) :
    String → Option String :=
  structs.foldl
    (fun acc s =>
      if ets.contains s.typename then
        fun v => if s.vars.contains v then some s.typename else acc v
      else acc)
    (fun _ => none)

/-- The `props` local of `make`: all variables, struct order then member
order. -/
def props (h : HeaderModel) : List String :=
  h.structs.flatMap (·.vars)

/-- The `str_format` local of `make`. -/
def str_format (h : HeaderModel) : String :=
  let lk := variables_to_enum_type h.structs (enum_types h.enum_classes)
  joinLines ", "
    (props h |>.map (fun n =>
      n ++ (if (lk n).isSome then "=\x27%s\x27" else "=%s")))

/-- The `variable_names` local of `make`. -/
def variable_names (h : HeaderModel) : String :=
  joinLines ", " (props h |>.map (fun n => "self." ++ n))

/-- PROP_TEMPLATE rendered with the loop locals of `make` (`string.Template`
substitution of `$prop`, `$member_name`, `$typename`). -/
def renderProp (member_name prop typename : String) : String :=
  ("    property " ++ prop ++ ":") ++ "\n" ++
  ("        def __get__(self):\n" ++
   "            return self." ++ member_name ++ "." ++ prop ++ "\n" ++
   "        def __set__(self, " ++ typename ++ " x):\n" ++
   "            self." ++ member_name ++ "." ++ prop ++ " = x\n")

/-- ENUM_PROP_TEMPLATE rendered with the loop locals of `make`
(substitution of `$prop`, `$member_name`, `$Type`, `$\x7bTYPE\x7d`). -/
def renderEnumProp (member_name prop Ty TYPE : String) : String :=
  ("    property " ++ prop ++ ":") ++ "\n" ++
  ("        def __get__(self):\n" ++
   "            return self." ++ TYPE ++ "_NAMES[<int> self." ++ member_name ++ "." ++ prop ++ "]\n" ++
   "        def __set__(self, object x):\n" ++
   "            cdef uint8_t i\n" ++
   "            if isinstance(x, str):\n" ++
   "                i = self." ++ TYPE ++ "_NAMES.index(x)\n" ++
   "            else:\n" ++
   "                i = <uint8_t> x\n" ++
   "                if i >= len(self." ++ TYPE ++ "_NAMES):\n" ++
   "                    raise ValueError(\"Can\x27t understand value \" + str(i))\n" ++
   "            self." ++ member_name ++ "." ++ prop ++ " = <" ++ Ty ++ ">(i)\n")

/-- The `property_list` list built by the nested loop of `make`: one
rendered template per variable, struct order then member order; the enum
template is chosen exactly when the variable is in `variables_to_enum_type`. -/
def property_blocks (h : HeaderModel) : List String :=
  h.structs.flatMap (fun s =>
    s.vars.map (fun prop =>
      match variables_to_enum_type h.structs (enum_types h.enum_classes) prop with
      | some Ty => renderEnumProp "_instance" prop Ty (strUpper Ty)
      | none => renderProp "_instance" prop s.typename))

/-- The `property_list` string: `'\n'.join(property_list)`. -/
def property_list (h : HeaderModel) : String :=
  joinLines "\n" (property_blocks h)

/-- CLASS_TEMPLATE rendered with the locals of `make`. -/
def renderClass (header_file ns classname member_name enum_pyx sf vn sd pl : String) : String :=
  ("\ncdef extern from \"<" ++ header_file ++ ">\" namespace \"" ++ ns ++ "\":\n") ++
  sd ++
  (("\n\ncdef class _" ++ classname ++ "(_Wrapper):\n" ++
    "    cdef " ++ classname ++ " " ++ member_name ++ ";\n" ++
    enum_pyx ++ "\n" ++
    "    def __cinit__(self):\n" ++
    "        clearStruct(self." ++ member_name ++ ")\n\n" ++
    "    def clear(self):\n" ++
    "        clearStruct(self." ++ member_name ++ ")\n\n" ++
    "    def __str__(self):\n" ++
    "        return \"(" ++ sf ++ ")\" % (\n            " ++ vn ++ ")\n\n") ++
   pl)

/-- The `make` function of `read_structs.py`.  `header` stands for the
result of `read_header_file(header_file)` (that reader is not part of this
tree), and `timestamp` models the `datetime.datetime.utcnow().isoformat()`
value computed on line 55; `template` is the unused second parameter. -/
def make (header_file template timestamp : String) (header : HeaderModel) : String :=
  let classname := header.classname
  let ns := joinLines ":" header.namespaces
  let member_name := "_instance"
  let me := make_enums header.enum_classes header_file ns classname
  let mt := me.1
  if property_list header = "" then mt
  else
    mt ++ renderClass header_file ns classname member_name me.2.1
      (str_format header) (variable_names header) (struct_definition header)
      (property_list header)

/-- Literal text of MAIN_TEMPLATE from `read_structs.py`. -/
def MAIN_TEMPLATE : String := "$enum_class"

/-- Literal text of CLASS_TEMPLATE from `read_structs.py`. -/
def CLASS_TEMPLATE : String :=
  "\ncdef extern from \"<$header_file>\" namespace \"$namespace\":\n$struct_definition\n\ncdef class _$classname(_Wrapper):\n    cdef $classname $member_name;\n$enum_pyx\n    def __cinit__(self):\n        clearStruct(self.$member_name)\n\n    def clear(self):\n        clearStruct(self.$member_name)\n\n    def __str__(self):\n        return \"($str_format)\" % (\n            $variable_names)\n\n$property_list"

/-- Literal text of PROP_TEMPLATE from `read_structs.py`. -/
def PROP_TEMPLATE : String :=
  "    property $prop:\n        def __get__(self):\n            return self.$member_name.$prop\n        def __set__(self, $typename x):\n            self.$member_name.$prop = x\n"

/-- Literal text of ENUM_PROP_TEMPLATE from `read_structs.py`. -/
def ENUM_PROP_TEMPLATE : String :=
  "    property $prop:\n        def __get__(self):\n            return self.$\x7bTYPE\x7d_NAMES[<int> self.$member_name.$prop]\n        def __set__(self, object x):\n            cdef uint8_t i\n            if isinstance(x, str):\n                i = self.$\x7bTYPE\x7d_NAMES.index(x)\n            else:\n                i = <uint8_t> x\n                if i >= len(self.$\x7bTYPE\x7d_NAMES):\n                    raise ValueError(\"Can\x27t understand value \" + str(i))\n            self.$member_name.$prop = <$Type>(i)\n"

/-- Substring test: does `pat` occur inside `s`? -/
def strContains (s pat : String) : Bool :=
  s.data.tails.any (fun t => pat.data.isPrefixOf t)

/-- Argument passed to the generated enum-property `__set__`: a Python
string or an integer. -/
inductive EnumSetArg where
  | str (s : String)
  | int (n : Int)
deriving DecidableEq, Repr

/-- Errors the generated enum-property `__set__` can raise: `lookup` is the
ValueError raised by `list.index` for an absent name, `range` the explicit
`ValueError("Can't understand value ...")`, and `overflow` the
OverflowError Cython raises when converting a Python integer outside
`[0, 255]` to the declared `uint8_t`. -/
inductive EnumSetError where
  | lookup
  | range
  | overflow
deriving DecidableEq, Repr

/-- Both `range` and `overflow` report an out-of-range value. -/
def EnumSetError.isRange : EnumSetError → Bool
  | .lookup => false
  | .range => true
  | .overflow => true

/-- Python's `list.index` on a list of strings: index of the first
occurrence, or `none` where Python raises ValueError. -/
def list_index (s : String) : List String → Option Nat
  | [] => none
  | a :: rest => if a == s then some 0 else (list_index s rest).map (· + 1)

/-- Runtime semantics of the `__set__` emitted by ENUM_PROP_TEMPLATE, over
the named list `names` attached to the wrapper class: a string is resolved
with `names.index` (ValueError if absent, then stored into the `uint8_t`
local, OverflowError if the index exceeds 255); any other value is
converted with `<uint8_t> x` (OverflowError outside `[0, 255]`) and then
bounds-checked against `len(names)` (ValueError if too large).  On success
the stored raw value is returned. -/
def enum_set (names : List String) : EnumSetArg → Except EnumSetError Nat
  | .str s =>
    match list_index s names with
    | some i => if 255 < i then .error .overflow else .ok i
    | none => .error .lookup
  | .int n =>
    if n < 0 ∨ 255 < n then .error .overflow
    else if names.length ≤ n.toNat then .error .range
    else .ok n.toNat

/-- Runtime semantics of the generated `__get__` after the corresponding
`__set__`: the setter stores a raw index and the getter returns
`names[raw]`; `none` when the setter raised. -/
def set_then_get (names : List String) (x : EnumSetArg) : Option String :=
  match enum_set names x with
  | .ok i => names.get? i
  | .error _ => none

/-- Runtime value of `str(wrapper)` right after `clear` (zero-initialised
instance, per spec §4.3 `clearStruct` zero-initialises): the generated
`__str__` applies `"($str_format)" % (self.p1, self.p2, ...)`, where an
enum-typed property reads `NAMES[0]` and a plain property reads `0`.
Returns `none` when an enum-typed property has an empty named list (the
generated lookup would raise IndexError). -/
def str_after_reset (h : HeaderModel) : Option String :=
  let lk := variables_to_enum_type h.structs (enum_types h.enum_classes)
  (props h |>.mapM (fun p =>
    match lk p with
    | some Ty =>
      (h.enum_classes.find? (fun e : EnumDecl => e.name == Ty)).bind
        (fun e => (e.members.get? 0).map
          (fun nm => p ++ "=\x27" ++ nm ++ "\x27"))
    | none => some (p ++ "=0"))).map
    (fun parts => "(" ++ joinLines ", " parts ++ ")")

/-- Splits a list at its last occurrence of `sep`, returning the pieces
before and after it, or `none` when `sep` does not occur. -/
def splitLast (sep : Char) : List Char → Option (List Char × List Char)
  | [] => none
  | c :: rest =>
    match splitLast sep rest with
    | some (a, b) => some (c :: a, b)
    | none => if c = sep then some ([], rest) else none

/-- Drops trailing slashes. -/
def rstripSlash (l : List Char) : List Char :=
  (l.reverse.dropWhile (fun c => c == '/')).reverse

/-- Python's `os.path.split` (posix): split at the last slash; the head
keeps the slash only when it consists of slashes alone, otherwise trailing
slashes are stripped. -/
def osSplit (f : String) : String × String :=
  match splitLast '/' f.data with
  | some (h, t) =>
    let head := h ++ ['/']
    let stripped := rstripSlash head
    (String.mk (if stripped = [] then head else stripped), String.mk t)
  | none => ("", f)

/-- Index of the last occurrence of `c`. -/
def lastIdxOf (c : Char) : List Char → Option Nat
  | [] => none
  | a :: rest =>
    match lastIdxOf c rest with
    | some i => some (i + 1)
    | none => if a = c then some 0 else none

/-- Python's `os.path.splitext` (posix): split at the last dot of the
basename, unless only dots precede it there (leading dots never start an
extension). -/
def osSplitext (f : String) : String × String :=
  let cs := f.data
  let fi := match lastIdxOf '/' cs with
    | some si => si + 1
    | none => 0
  match lastIdxOf '.' cs with
  | some di =>
    if fi ≤ di ∧ ((cs.drop fi).take (di - fi)).any (fun c => c ≠ '.') then
      (String.mk (cs.take di), String.mk (cs.drop di))
    else (f, "")
  | none => (f, "")

/-- Python's `os.path.join` for two components (posix). -/
def osJoin (a b : String) : String :=
  if strStartsWith b "/" then b
  else if a = "" ∨ strEndsWith a "/" then a ++ b
  else a ++ "/" ++ b

/-- The output path derived on lines 111-112 of `read_structs.py`:
`base, fname = os.path.split(os.path.splitext(f)[0])` followed by
`os.path.join(base, '_' + fname + '.pyx')`. -/
def outfile (f : String) : String :=
  let sp := osSplit (osSplitext f).1
  osJoin sp.1 ("_" ++ sp.2 ++ ".pyx")

/-- The `read_structs` driver.  Each input is a path paired with the header
model its file parses to; `ws` accumulates the `(path, data)` writes already
performed (each `open(outfile, 'w').write(data)` overwrites its target).
The result is the final write list together with the assertion message when
some path does not end in `'.h'` (Python's
`assert f.endswith('.h'), 'Not a header file: ' + f`); processing stops at
the first such path. -/
def read_structs (template timestamp : String) :
    List (String × HeaderModel) → List (String × String) →
    List (String × String) × Option String
  | [], ws => (ws, none)
  | (f, hm) :: rest, ws =>
    if strEndsWith f ".h" then
      read_structs template timestamp rest
        (ws ++ [(outfile f, make f template timestamp hm)])
    else (ws, some ("Not a header file: " ++ f))

/-- Splits a character list into its lines at each newline character. -/
def splitLines : List Char → List (List Char)
  | [] => [[]]
  | c :: rest =>
    if c = '\n' then [] :: splitLines rest
    else
      match splitLines rest with
      | [] => [[c]]
      | l :: ls => (c :: l) :: ls

theorem splitLines_ne_nil (l : List Char) : splitLines l ≠ [] := by
  cases l with
  | nil => simp [splitLines]
  | cons c rest =>
    simp only [splitLines]
    split
    · simp
    · split <;> simp

theorem splitLines_append_cons (a b : List Char) :
    splitLines (a ++ '\n' :: b) = splitLines a ++ splitLines b := by
  induction a with
  | nil => simp [splitLines]
  | cons c rest ih =>
    by_cases hc : c = '\n'
    · subst hc
      simp [splitLines, ih]
    · simp only [List.cons_append, splitLines, if_neg hc]
      rw [List.append_eq, ih]
      cases hrest : splitLines rest with
      | nil => exact absurd hrest (splitLines_ne_nil rest)
      | cons l ls => simp

theorem splitLines_no_newline (a : List Char) (h : '\n' ∉ a) : splitLines a = [a] := by
  induction a with
  | nil => rfl
  | cons c rest ih =>
    have hc : ¬ c = '\n' := fun hh => h (hh ▸ List.mem_cons_self c rest)
    have hr : '\n' ∉ rest := fun hm => h (List.mem_cons_of_mem _ hm)
    simp only [splitLines, if_neg hc, ih hr]

theorem data_append (a b : String) : (a ++ b).data = a.data ++ b.data := rfl

theorem strAppend_assoc (a b c : String) : a ++ b ++ c = a ++ (b ++ c) :=
  String.ext (by simp [data_append])

theorem strAppend_empty (a : String) : a ++ "" = a :=
  String.ext (by simp [data_append])

/-- First line of a string. -/
def firstLine (s : String) : List Char := (splitLines s.data).headD []

theorem firstLine_append (a b : String) (ha : '\n' ∉ a.data) :
    firstLine (a ++ "\n" ++ b) = a.data := by
  unfold firstLine
  have hd : (a ++ "\n" ++ b).data = a.data ++ '\n' :: b.data := by
    rw [data_append, data_append]
    simp
  rw [hd, splitLines_append_cons, splitLines_no_newline a.data ha]
  simp

/-- The property name on the first line of a rendered property block
(the text between `    property ` and the trailing colon). -/
def blockName (b : String) : String :=
  String.mk (((firstLine b).drop 13).dropLast)

theorem blockName_renderProp (m p t : String) (hp : '\n' ∉ p.data) :
    blockName (renderProp m p t) = p := by
  unfold blockName renderProp
  rw [firstLine_append]
  · have hX : ("    property " ++ p ++ ":").data =
        "    property ".data ++ (p.data ++ [':']) := by
      rw [data_append, data_append]
      simp
    rw [hX]
    have h13 : "    property ".data.length = 13 := rfl
    rw [← h13, List.drop_left, List.dropLast_concat]
  · rw [data_append, data_append]
    intro hmem
    rcases List.mem_append.mp hmem with h1 | h2
    · rcases List.mem_append.mp h1 with h3 | h4
      · exact absurd h3 (by decide)
      · exact hp h4
    · exact absurd h2 (by decide)

theorem blockName_renderEnumProp (m p ty tY : String) (hp : '\n' ∉ p.data) :
    blockName (renderEnumProp m p ty tY) = p := by
  unfold blockName renderEnumProp
  rw [firstLine_append]
  · have hX : ("    property " ++ p ++ ":").data =
        "    property ".data ++ (p.data ++ [':']) := by
      rw [data_append, data_append]
      simp
    rw [hX]
    have h13 : "    property ".data.length = 13 := rfl
    rw [← h13, List.drop_left, List.dropLast_concat]
  · rw [data_append, data_append]
    intro hmem
    rcases List.mem_append.mp hmem with h1 | h2
    · rcases List.mem_append.mp h1 with h3 | h4
      · exact absurd h3 (by decide)
      · exact hp h4
    · exact absurd h2 (by decide)

theorem blockName_property_blocks (h : HeaderModel)
    (hv : ∀ s ∈ h.structs, ∀ v ∈ s.vars, '\n' ∉ v.data) :
    (property_blocks h).map blockName = props h := by
  unfold property_blocks props
  have H : ∀ (ls : List StructDecl),
      (∀ s ∈ ls, ∀ v ∈ s.vars, '\n' ∉ v.data) →
      (ls.flatMap (fun s =>
        s.vars.map (fun prop =>
          match variables_to_enum_type h.structs (enum_types h.enum_classes) prop with
          | some Ty => renderEnumProp "_instance" prop Ty (strUpper Ty)
          | none => renderProp "_instance" prop s.typename))).map blockName
        = ls.flatMap (·.vars) := by
    intro ls
    induction ls with
    | nil => intro _; simp
    | cons s rest ih =>
      intro hls
      simp only [List.flatMap_cons, List.map_append]
      rw [ih (fun s' hs' => hls s' (List.mem_cons_of_mem _ hs'))]
      congr 1
      rw [List.map_map]
      have hmem : ∀ v ∈ s.vars,
          (blockName ∘ fun prop =>
            match variables_to_enum_type h.structs (enum_types h.enum_classes) prop with
            | some Ty => renderEnumProp "_instance" prop Ty (strUpper Ty)
            | none => renderProp "_instance" prop s.typename) v = v := by
        intro v hv'
        have hnv : '\n' ∉ v.data := hls s (List.mem_cons_self s rest) v hv'
        cases hc : variables_to_enum_type h.structs (enum_types h.enum_classes) v with
        | some Ty =>
          simp only [Function.comp, hc]
          exact blockName_renderEnumProp _ _ _ _ hnv
        | none =>
          simp only [Function.comp, hc]
          exact blockName_renderProp _ _ _ hnv
      calc (s.vars.map _) = s.vars.map id := List.map_congr_left (by simpa using hmem)
        _ = s.vars := List.map_id s.vars
  exact H h.structs hv

theorem make_eq (header_file template timestamp : String) (h : HeaderModel) :
    make header_file template timestamp h =
      if property_list h = "" then
        (make_enums h.enum_classes header_file (joinLines ":" h.namespaces) h.classname).1
      else
        (make_enums h.enum_classes header_file (joinLines ":" h.namespaces) h.classname).1 ++
          renderClass header_file (joinLines ":" h.namespaces) h.classname "_instance"
            (make_enums h.enum_classes header_file (joinLines ":" h.namespaces) h.classname).2.1
            (str_format h) (variable_names h) (struct_definition h) (property_list h) := rfl

theorem strAssoc5 (x a sd z : String) :
    x ++ ((a ++ sd) ++ z) = (x ++ a) ++ (sd ++ z) :=
  String.ext (by simp [data_append, List.append_assoc])

theorem strAssoc4 (x y m pl : String) :
    x ++ (y ++ (m ++ pl)) = ((x ++ y) ++ m) ++ pl :=
  String.ext (by simp [data_append, List.append_assoc])

theorem property_list_suffix (header_file template timestamp : String) (h : HeaderModel) :
    ∃ pre, make header_file template timestamp h = pre ++ property_list h := by
  rw [make_eq]
  by_cases hpl : property_list h = ""
  · rw [if_pos hpl, hpl]
    exact ⟨_, (strAppend_empty _).symm⟩
  · rw [if_neg hpl]
    unfold renderClass
    exact ⟨_, strAssoc4 _ _ _ _⟩

theorem list_index_eq_none (s : String) (l : List String) (h : s ∉ l) :
    list_index s l = none := by
  induction l with
  | nil => rfl
  | cons a rest ih =>
    have ha : ¬ (a == s) = true := by
      intro hb
      exact h (eq_of_beq hb ▸ List.mem_cons_self a rest)
    simp [list_index, ha, ih (fun hm => h (List.mem_cons_of_mem _ hm))]

theorem list_index_self (l : List String) (i : Nat) (h : i < l.length) :
    ∃ j, list_index (l.get ⟨i, h⟩) l = some j ∧ j ≤ i ∧
      l.get? j = some (l.get ⟨i, h⟩) := by
  induction l generalizing i with
  | nil => simp at h
  | cons a rest ih =>
    cases i with
    | zero =>
      refine ⟨0, ?_, Nat.le_refl 0, by simp⟩
      simp [list_index]
    | succ i' =>
      have hi' : i' < rest.length := by simpa using h
      have hget : (a :: rest).get ⟨i' + 1, h⟩ = rest.get ⟨i', hi'⟩ := rfl
      by_cases hb : (a == rest.get ⟨i', hi'⟩) = true
      · have heq := eq_of_beq hb
        refine ⟨0, ?_, Nat.zero_le _, ?_⟩
        · simp [list_index, hget, heq]
        · simp [hget, heq]
      · obtain ⟨j, hj, hji, hg⟩ := ih i' hi'
        have hne : a ≠ rest.get ⟨i', hi'⟩ := fun he => hb (by rw [he]; exact beq_self_eq_true _)
        refine ⟨j + 1, ?_, Nat.succ_le_succ hji, ?_⟩
        · simp only [list_index, hget]
          rw [if_neg hb, hj]
          rfl
        · simpa [hget] using hg

/-- Claim C1: for the generated enum-property setter, an integer at least
the length of the named list always fails with an out-of-range error (the
explicit `ValueError` for values representable in the `uint8_t` local, the
conversion `OverflowError` beyond it — never the lookup error), and a
string absent from the named list fails with the lookup `ValueError` from
`list.index`. -/
theorem enum_set_failures (names : List String) (n : Int) (s : String) :
    ((names.length : Int) ≤ n →
      ∃ e, enum_set names (.int n) = .error e ∧ e.isRange = true) ∧
    (s ∉ names → enum_set names (.str s) = .error .lookup) := by
  constructor
  · intro hn
    by_cases h255 : 255 < n
    · exact ⟨.overflow, by simp [enum_set, Or.inr h255], rfl⟩
    · have h0 : ¬ (n < 0 ∨ 255 < n) := by omega
      have hlen : names.length ≤ n.toNat := by omega
      exact ⟨.range, by simp [enum_set, h0, hlen], rfl⟩
  · intro hs
    simp [enum_set, list_index_eq_none s names hs]

/-- Witness for C1 at the named list `["A", "B"]`, integer 5 and string
`"C"`. -/
theorem enum_set_failures_witness :
    (∃ e, enum_set ["A", "B"] (.int 5) = .error e ∧ e.isRange = true) ∧
    enum_set ["A", "B"] (.str "C") = .error .lookup :=
  ⟨(enum_set_failures ["A", "B"] 5 "C").1 (by decide),
   (enum_set_failures ["A", "B"] 5 "C").2 (by decide)⟩

/-- Claim C5 (amended): for every enum member at index `i ≤ 255` of the
named list, setting the generated property to that member's name and
getting it back returns the same name, and setting to the integer `i`
gives the same get result as setting to the name directly.  (Indices above
255 overflow the `uint8_t` local of the generated setter; see the
counterexample.) -/
theorem enum_roundtrip (names : List String) (i : Nat)
    (h1 : i < names.length) (h2 : i ≤ 255) :
    set_then_get names (.str (names.get ⟨i, h1⟩)) = some (names.get ⟨i, h1⟩) ∧
    set_then_get names (.int (i : Int)) =
      set_then_get names (.str (names.get ⟨i, h1⟩)) := by
  obtain ⟨j, hj, hji, hg⟩ := list_index_self names i h1
  have hstr : set_then_get names (.str (names.get ⟨i, h1⟩)) =
      some (names.get ⟨i, h1⟩) := by
    simp only [set_then_get, enum_set]
    rw [hj]
    simp only [if_neg (by omega : ¬ 255 < j)]
    exact hg
  refine ⟨hstr, ?_⟩
  rw [hstr]
  simp only [set_then_get, enum_set]
  have hcond : ¬ ((i : Int) < 0 ∨ 255 < (i : Int)) := by omega
  have htoNat : (i : Int).toNat = i := Int.toNat_ofNat i
  simp only [if_neg hcond, htoNat, if_neg (by omega : ¬ names.length ≤ i)]
  exact List.get?_eq_get h1

/-- Witness for the amended C5 at the named list `["A", "B"]`, member
`"B"` at index 1. -/
theorem enum_roundtrip_witness :
    set_then_get ["A", "B"] (.str "B") = some "B" ∧
    set_then_get ["A", "B"] (.int 1) = set_then_get ["A", "B"] (.str "B") :=
  enum_roundtrip ["A", "B"] 1 (by decide) (by decide)

/-- A named list with 257 distinct single-character member names. -/
def bigNames : List String :=
  (List.range 257).map (fun n => String.mk [Char.ofNat (65 + n)])

set_option maxRecDepth 8000 in
/-- Counterexample to C5 as stated (second statement of it): `bigNames` has
a member at index 256, but setting the generated property to that member
name does not read back as the same name — the `cdef uint8_t i` local of
ENUM_PROP_TEMPLATE cannot hold index 256, so the setter raises
OverflowError instead of storing. -/
theorem enum_roundtrip_index_256_fails :
    bigNames.get? 256 = some (String.mk [Char.ofNat 321]) ∧
    enum_set bigNames (.str (String.mk [Char.ofNat 321])) = .error .overflow ∧
    set_then_get bigNames (.str (String.mk [Char.ofNat 321])) ≠
      some (String.mk [Char.ofNat 321]) := by
  have he : enum_set bigNames (.str (String.mk [Char.ofNat 321])) =
      .error .overflow := rfl
  refine ⟨rfl, he, ?_⟩
  simp [set_then_get, he]

/-- Claim C2: for every header input, two runs of `make` on the same parsed
header agree byte-for-byte outside any timestamp field — indeed the
timestamp (the only run-dependent input, modelled as the `timestamp`
argument) does not influence the output at all, so the outputs of any two
runs are byte-identical. -/
theorem make_identical_across_runs (header_file template ts1 ts2 : String)
    (h : HeaderModel) :
    make header_file template ts1 h = make header_file template ts2 h := rfl

set_option maxRecDepth 8000 in
/-- Claim C9: the timestamp computed in `make` is never emitted — neither
MAIN_TEMPLATE nor CLASS_TEMPLATE contains a `$timestamp` (or
`$\x7btimestamp\x7d`) placeholder, and the output of `make` is entirely
independent of the timestamp, so runs at different times are fully
byte-identical with nothing to mask. -/
theorem timestamp_never_emitted :
    strContains MAIN_TEMPLATE "$timestamp" = false ∧
    strContains CLASS_TEMPLATE "$timestamp" = false ∧
    strContains MAIN_TEMPLATE "$\x7btimestamp" = false ∧
    strContains CLASS_TEMPLATE "$\x7btimestamp" = false ∧
    ∀ (header_file template ts1 ts2 : String) (h : HeaderModel),
      make header_file template ts1 h = make header_file template ts2 h :=
  ⟨by decide, by decide, by decide, by decide, fun _ _ _ _ _ => rfl⟩

/-- Claim C6: a header whose structs declare no member variables produces
no wrapper class at all — `make` returns exactly the enum declarations
(the first component of `make_enums`). -/
theorem no_props_enum_decls_only (header_file template timestamp : String)
    (h : HeaderModel) (hempty : ∀ s ∈ h.structs, s.vars = []) :
    make header_file template timestamp h =
      (make_enums h.enum_classes header_file (joinLines ":" h.namespaces)
        h.classname).1 := by
  have hb : ∀ ls : List StructDecl, (∀ s ∈ ls, s.vars = []) →
      (ls.flatMap (fun s =>
        s.vars.map (fun prop =>
          match variables_to_enum_type h.structs (enum_types h.enum_classes) prop with
          | some Ty => renderEnumProp "_instance" prop Ty (strUpper Ty)
          | none => renderProp "_instance" prop s.typename))) = [] := by
    intro ls
    induction ls with
    | nil => intro _; rfl
    | cons s rest ih =>
      intro hl
      simp only [List.flatMap_cons]
      rw [hl s (List.mem_cons_self s rest)]
      simp only [List.map_nil, List.nil_append]
      exact ih (fun s' h' => hl s' (List.mem_cons_of_mem _ h'))
  have hpb : property_blocks h = [] := hb h.structs hempty
  rw [make_eq, if_pos]
  unfold property_list
  rw [hpb]
  rfl

/-- Header with enum declarations but no struct member variables, used as
the witness input for C6. -/
def enumOnlyHeader : HeaderModel :=
  { classname := "Baz", namespaces := ["outer", "inner"],
    enum_classes := [{ name := "Kind", members := ["X", "Y"] }],
    structs := [{ typename := "int", vars := [] }] }

/-- Witness for C6 at a header declaring one enum and a memberless struct. -/
theorem no_props_enum_decls_only_witness :
    make "kind.h" "tmpl" "2021-06-01T00:00:00" enumOnlyHeader =
      (make_enums enumOnlyHeader.enum_classes "kind.h"
        (joinLines ":" enumOnlyHeader.namespaces) enumOnlyHeader.classname).1 :=
  no_props_enum_decls_only "kind.h" "tmpl" "2021-06-01T00:00:00" enumOnlyHeader
    (by decide)

/-- Claim C7: the property-accessor blocks emitted by `make` follow the
declaration order of the structs and, within each struct, of its member
variables: the property names of the blocks, in emission order, are
exactly `props h` (struct order then member order), and the joined blocks
are emitted verbatim as the tail of `make`'s output. -/
theorem emitted_property_order (header_file template timestamp : String)
    (h : HeaderModel)
    (hv : ∀ s ∈ h.structs, ∀ v ∈ s.vars, '\n' ∉ v.data) :
    (property_blocks h).map blockName = props h ∧
    ∃ pre, make header_file template timestamp h = pre ++ property_list h :=
  ⟨blockName_property_blocks h hv,
   property_list_suffix header_file template timestamp h⟩

/-- Header with one enum-typed member and two plain members, used as the
witness input for C7. -/
def orderHeader : HeaderModel :=
  { classname := "W", namespaces := ["n"],
    enum_classes := [{ name := "Kind", members := ["K0", "K1"] }],
    structs := [{ typename := "Kind", vars := ["kind"] },
                { typename := "int", vars := ["alpha", "beta"] }] }

/-- Witness for C7 at a two-struct, three-member header. -/
theorem emitted_property_order_witness :
    (property_blocks orderHeader).map blockName = props orderHeader ∧
    ∃ pre, make "w.h" "tmpl" "2021-06-01T00:00:00" orderHeader =
      pre ++ property_list orderHeader :=
  emitted_property_order "w.h" "tmpl" "2021-06-01T00:00:00" orderHeader
    (by decide)

theorem joinLines_nonempty (sep : String) (x : String) (ls : List String)
    (hx : x ≠ "") : joinLines sep (x :: ls) ≠ "" := by
  cases ls with
  | nil => simpa [joinLines]
  | cons y rest =>
    simp only [joinLines]
    intro hcontra
    apply hx
    have := congrArg String.data hcontra
    rw [data_append, data_append] at this
    have hx' : x.data = [] := by
      cases hdx : x.data with
      | nil => rfl
      | cons c cs => rw [hdx] at this; simp at this
    exact String.ext hx'

theorem no_newline_joinLines (sep : String) (hsep : '\n' ∉ sep.data)
    (ls : List String) (hl : ∀ l ∈ ls, '\n' ∉ l.data) :
    '\n' ∉ (joinLines sep ls).data := by
  induction ls with
  | nil => simp [joinLines]
  | cons x rest ih =>
    cases rest with
    | nil => exact hl x (List.mem_cons_self x [])
    | cons y r =>
      simp only [joinLines, data_append]
      intro hmem
      rcases List.mem_append.mp hmem with h1 | h2
      · rcases List.mem_append.mp h1 with h3 | h4
        · exact hl x (List.mem_cons_self x _) h3
        · exact hsep h4
      · exact ih (fun l hml => hl l (List.mem_cons_of_mem _ hml)) h2

theorem fmtStruct_no_newline (s : StructDecl) (ht : '\n' ∉ s.typename.data)
    (hv : ∀ v ∈ s.vars, '\n' ∉ v.data) : '\n' ∉ (fmtStruct s).data := by
  unfold fmtStruct
  rw [data_append, data_append]
  intro hmem
  rcases List.mem_append.mp hmem with h1 | h2
  · rcases List.mem_append.mp h1 with h3 | h4
    · exact ht h3
    · exact absurd h4 (by decide)
  · exact no_newline_joinLines ", " (by decide) s.vars hv h2

theorem fmtStruct_ne_empty (s : StructDecl) : fmtStruct s ≠ "" := by
  unfold fmtStruct
  intro hcontra
  have := congrArg String.data hcontra
  rw [data_append, data_append] at this
  simp at this

/-- The lines into which a chain `"        " ++ l1 ++ "\n        " ++ l2 ++ ...`
splits, when no `li` contains a newline. -/
theorem splitLines_join8 (ls : List String) (hl : ∀ l ∈ ls, '\n' ∉ l.data)
    (hne : ls ≠ []) :
    splitLines ("        ".data ++ (joinLines "\n        " ls).data) =
      ls.map (fun l => ("        " ++ l).data) := by
  induction ls with
  | nil => exact absurd rfl hne
  | cons x rest ih =>
    cases rest with
    | nil =>
      simp only [joinLines, List.map]
      rw [← data_append]
      exact splitLines_no_newline _ (by
        rw [data_append]
        intro hmem
        rcases List.mem_append.mp hmem with h1 | h2
        · exact absurd h1 (by decide)
        · exact hl x (List.mem_cons_self x _) h2)
    | cons y r =>
      have hshape : "        ".data ++ (joinLines "\n        " (x :: y :: r)).data =
          ("        " ++ x).data ++ '\n' ::
            ("        ".data ++ (joinLines "\n        " (y :: r)).data) := by
        simp only [joinLines, data_append, List.append_assoc]
        rfl
      rw [hshape, splitLines_append_cons]
      rw [splitLines_no_newline (("        " ++ x).data) (by
        rw [data_append]
        intro hmem
        rcases List.mem_append.mp hmem with h1 | h2
        · exact absurd h1 (by decide)
        · exact hl x (List.mem_cons_self x _) h2)]
      rw [ih (fun l hml => hl l (List.mem_cons_of_mem _ hml)) (by simp)]
      rfl

/-- Claim C4 (amended): the struct mirror built by `make` is one line per
StructDecl in order, each line `typename` + space + the variable names
joined by comma-space (not plain spaces), all indented by the same eight
spaces under the `    struct <classname>:` header, with no blank lines;
whenever any property exists it is emitted verbatim inside `make`'s
output. -/
theorem struct_mirror_lines (header_file template timestamp : String)
    (h : HeaderModel)
    (hcn : '\n' ∉ h.classname.data)
    (ht : ∀ s ∈ h.structs, '\n' ∉ s.typename.data)
    (hv : ∀ s ∈ h.structs, ∀ v ∈ s.vars, '\n' ∉ v.data) :
    splitLines (struct_definition h).data =
      ("    struct " ++ h.classname ++ ":").data ::
        h.structs.map (fun s => ("        " ++ fmtStruct s).data) ∧
    [] ∉ splitLines (struct_definition h).data ∧
    (property_list h ≠ "" →
      ∃ p q, make header_file template timestamp h =
        p ++ (struct_definition h ++ q)) := by
  have hhead : '\n' ∉ ("    struct " ++ h.classname ++ ":").data := by
    rw [data_append, data_append]
    intro hmem
    rcases List.mem_append.mp hmem with h1 | h2
    · rcases List.mem_append.mp h1 with h3 | h4
      · exact absurd h3 (by decide)
      · exact hcn h4
    · exact absurd h2 (by decide)
  have hpart1 : splitLines (struct_definition h).data =
      ("    struct " ++ h.classname ++ ":").data ::
        h.structs.map (fun s => ("        " ++ fmtStruct s).data) := by
    unfold struct_definition
    cases hst : h.structs with
    | nil =>
      rw [show pyx_structs ([] : List StructDecl) = "" from rfl, strAppend_empty]
      exact splitLines_no_newline _ hhead
    | cons s rest =>
      have hj : joinLines "\n        " ((s :: rest).map fmtStruct) ≠ "" := by
        simp only [List.map_cons]
        exact joinLines_nonempty _ _ _ (fmtStruct_ne_empty s)
      unfold pyx_structs
      rw [if_neg hj]
      have hshape : (("    struct " ++ h.classname ++ ":") ++
            ("\n        " ++ joinLines "\n        " ((s :: rest).map fmtStruct))).data =
          ("    struct " ++ h.classname ++ ":").data ++ '\n' ::
            ("        ".data ++
              (joinLines "\n        " ((s :: rest).map fmtStruct)).data) := by
        simp only [data_append]
        rfl
      rw [hshape, splitLines_append_cons, splitLines_no_newline _ hhead]
      rw [splitLines_join8 _ (by
            intro l hml
            rcases List.mem_map.mp hml with ⟨s', hs', rfl⟩
            exact fmtStruct_no_newline s' (ht s' (hst ▸ hs'))
              (hv s' (hst ▸ hs')))
          (by simp)]
      rw [List.map_map]
      rfl
  refine ⟨hpart1, ?_, ?_⟩
  · rw [hpart1]
    intro hmem
    rcases List.mem_cons.mp hmem with h1 | h2
    · have : ("    struct " ++ h.classname ++ ":").data =
          "    struct ".data ++ (h.classname.data ++ [':']) := by
        simp [data_append]
      rw [this] at h1
      exact List.append_ne_nil_of_left_ne_nil (by decide) _ h1.symm
    · rcases List.mem_map.mp h2 with ⟨s', hs', heq⟩
      rw [data_append] at heq
      exact List.append_ne_nil_of_left_ne_nil (by decide) _ heq
  · intro hpl
    rw [make_eq, if_neg hpl]
    unfold renderClass
    exact ⟨_, _, strAssoc5 _ _ _ _⟩

/-- Formalisation of the spec's wording for the C4 mirror line, for
comparison only: "each line consisting of the typename followed by the
struct's variable names joined by spaces". -/
def fmtStruct_spec (s : StructDecl) : String :=
  s.typename ++ " " ++ joinLines " " s.vars

/-- Header whose single struct declares two variables, exercising the
join separator of the mirror lines. -/
def twoVarHeader : HeaderModel :=
  { classname := "Qux", namespaces := [], enum_classes := [],
    structs := [{ typename := "int", vars := ["a", "b"] }] }

/-- Counterexample to C4 as stated: the mirror line for `int a, b` joins
the variable names with comma-space, not with spaces as the claim says. -/
theorem struct_mirror_not_space_joined :
    fmtStruct { typename := "int", vars := ["a", "b"] } = "int a, b" ∧
    fmtStruct_spec { typename := "int", vars := ["a", "b"] } = "int a b" ∧
    struct_definition twoVarHeader = "    struct Qux:\n        int a, b" ∧
    struct_definition twoVarHeader ≠
      "    struct Qux:" ++ "\n        " ++
        fmtStruct_spec { typename := "int", vars := ["a", "b"] } := by
  refine ⟨by decide, by decide, by decide, by decide⟩

/-- Witness for the amended C4 at `twoVarHeader`. -/
theorem struct_mirror_lines_witness :
    splitLines (struct_definition twoVarHeader).data =
      ("    struct " ++ twoVarHeader.classname ++ ":").data ::
        twoVarHeader.structs.map (fun s => ("        " ++ fmtStruct s).data) ∧
    [] ∉ splitLines (struct_definition twoVarHeader).data ∧
    (property_list twoVarHeader ≠ "" →
      ∃ p q, make "qux.h" "tmpl" "2022-01-01T00:00:00" twoVarHeader =
        p ++ (struct_definition twoVarHeader ++ q)) :=
  struct_mirror_lines "qux.h" "tmpl" "2022-01-01T00:00:00" twoVarHeader
    (by decide) (by decide) (by decide)

/-- The scenario header of spec §8:
`namespace foo { class Bar { enum class Mode { A, B };
struct Fields { Mode mode; int count; }; }; }` — per the spec's data model
the reader yields the enclosing class name `Bar`, namespace path `foo`, the
enum `Mode` and one StructDecl per member declaration (its typename is what
`make` matches against the enum types). -/
def scenarioHeader : HeaderModel :=
  { classname := "Bar", namespaces := ["foo"],
    enum_classes := [{ name := "Mode", members := ["A", "B"] }],
    structs := [{ typename := "Mode", vars := ["mode"] },
                { typename := "int", vars := ["count"] }] }

/-- The output of `make` for the scenario header. -/
def scenarioOut : String :=
  make "scenario.h" "tmpl" "2020-01-01T00:00:00" scenarioHeader

set_option maxRecDepth 8000 in
/-- Counterexample to C3 as stated: the scenario output contains no
occurrence of `Fields` at all (CLASS_TEMPLATE names the struct mirror with
`$classname`, the enclosing class name `Bar` — the same placeholder that
names the wrapper `_Bar`), so there is no "struct mirror declaration named
Fields"; the mirror is `struct Bar:`. -/
theorem scenario_no_fields_mirror :
    strContains scenarioOut "Fields" = false ∧
    strContains scenarioOut "    struct Bar:" = true := by
  refine ⟨by decide, by decide⟩

set_option maxRecDepth 8000 in
/-- Claim C3 (amended): for the scenario header the output of `make`
contains the enum declaration for `Mode` with named list `["A", "B"]`, a
struct mirror declaration named `Bar` (the enclosing class name) with
member lines `Mode mode` and `int count`, a wrapper class `_Bar` with an
enum-aware property `mode` and a plain property `count`, and the generated
string representation yields `(mode='A', count=0)` after reset. -/
theorem scenario_output_contents :
    strContains scenarioOut "enum Mode:" = true ∧
    strContains scenarioOut "MODE_NAMES = [\"A\", \"B\"]" = true ∧
    strContains scenarioOut
      "    struct Bar:\n        Mode mode\n        int count" = true ∧
    strContains scenarioOut "cdef class _Bar(_Wrapper):" = true ∧
    strContains scenarioOut
      ("    property mode:\n        def __get__(self):\n            return self.MODE_NAMES[<int> self._instance.mode]") = true ∧
    strContains scenarioOut
      ("    property count:\n        def __get__(self):\n            return self._instance.count") = true ∧
    str_after_reset scenarioHeader = some "(mode=\x27A\x27, count=0)" := by
  refine ⟨by decide, by decide, by decide, by decide, by decide, by decide,
    by decide⟩

theorem read_structs_stops_at_bad (template timestamp : String)
    (pre : List (String × HeaderModel)) (bad : String × HeaderModel)
    (rest : List (String × HeaderModel)) (ws : List (String × String))
    (hpre : ∀ p ∈ pre, strEndsWith p.1 ".h" = true)
    (hbad : strEndsWith bad.1 ".h" = false) :
    read_structs template timestamp (pre ++ bad :: rest) ws =
      (ws ++ pre.map (fun p => (outfile p.1, make p.1 template timestamp p.2)),
       some ("Not a header file: " ++ bad.1)) := by
  obtain ⟨f, hm⟩ := bad
  revert hpre
  induction pre generalizing ws with
  | nil =>
    intro hpre
    simp only [List.nil_append, read_structs, List.map_nil, List.append_nil]
    rw [if_neg (by simp [hbad])]
  | cons p ps ih =>
    intro hpre
    obtain ⟨g, gm⟩ := p
    simp only [List.cons_append, read_structs]
    rw [if_pos (hpre (g, gm) (List.mem_cons_self _ _))]
    simp only [List.append_eq]
    rw [ih _ (fun p' hp' => hpre p' (List.mem_cons_of_mem _ hp'))]
    simp

/-- Claim C8: `read_structs` checks each file name in order and raises the
assertion `'Not a header file: ' + f` at the first input whose name does
not end in `.h`; processing stops there, so the writes performed are
exactly those for the earlier files — in particular no output is written
for the failing input. -/
theorem driver_raises_on_first_bad (template timestamp : String)
    (pre : List (String × HeaderModel)) (bad : String × HeaderModel)
    (rest : List (String × HeaderModel)) (ws : List (String × String))
    (hpre : ∀ p ∈ pre, strEndsWith p.1 ".h" = true)
    (hbad : strEndsWith bad.1 ".h" = false) :
    read_structs template timestamp (pre ++ bad :: rest) ws =
      (ws ++ pre.map (fun p => (outfile p.1, make p.1 template timestamp p.2)),
       some ("Not a header file: " ++ bad.1)) :=
  read_structs_stops_at_bad template timestamp pre bad rest ws hpre hbad

/-- Header with no declarations, used in the driver witnesses. -/
def emptyHeader : HeaderModel :=
  { classname := "E", namespaces := [], enum_classes := [], structs := [] }

/-- Witness for C8: two files, the second malformed. -/
theorem driver_raises_on_first_bad_witness :
    read_structs "tmpl" "2023-01-01T00:00:00"
        ([("a.h", emptyHeader)] ++ ("b.txt", emptyHeader) :: []) [] =
      ([] ++ [("a.h", emptyHeader)].map
        (fun p => (outfile p.1, make p.1 "tmpl" "2023-01-01T00:00:00" p.2)),
       some ("Not a header file: " ++ "b.txt")) :=
  driver_raises_on_first_bad "tmpl" "2023-01-01T00:00:00"
    [("a.h", emptyHeader)] ("b.txt", emptyHeader) [] []
    (by decide) (by decide)

/-- Claim C10: the batch is not atomic — when the first malformed name sits
at position `k`, the driver has already overwritten the derived output
files of all earlier inputs, and those writes remain in place when the
assertion fires. -/
theorem driver_partial_writes_remain (template timestamp : String)
    (pre : List (String × HeaderModel)) (bad : String × HeaderModel)
    (rest : List (String × HeaderModel)) (ws : List (String × String))
    (hpre : ∀ p ∈ pre, strEndsWith p.1 ".h" = true)
    (hbad : strEndsWith bad.1 ".h" = false) :
    (read_structs template timestamp (pre ++ bad :: rest) ws).1 =
      ws ++ pre.map (fun p => (outfile p.1, make p.1 template timestamp p.2)) ∧
    (read_structs template timestamp (pre ++ bad :: rest) ws).2.isSome = true := by
  rw [read_structs_stops_at_bad template timestamp pre bad rest ws hpre hbad]
  exact ⟨rfl, rfl⟩

/-- Witness for C10: three files, the third malformed, the first two
already written when the driver raises. -/
theorem driver_partial_writes_remain_witness :
    (read_structs "tmpl" "2023-02-02T00:00:00"
        ([("c.h", emptyHeader), ("d.h", emptyHeader)] ++
          ("e.cpp", emptyHeader) :: []) []).1 =
      [] ++ [("c.h", emptyHeader), ("d.h", emptyHeader)].map
        (fun p => (outfile p.1, make p.1 "tmpl" "2023-02-02T00:00:00" p.2)) ∧
    (read_structs "tmpl" "2023-02-02T00:00:00"
        ([("c.h", emptyHeader), ("d.h", emptyHeader)] ++
          ("e.cpp", emptyHeader) :: []) []).2.isSome = true :=
  driver_partial_writes_remain "tmpl" "2023-02-02T00:00:00"
    [("c.h", emptyHeader), ("d.h", emptyHeader)] ("e.cpp", emptyHeader) [] []
    (by decide) (by decide)
